import Mathlib

/-
Shallow embedding of the MotionToMIDI application core (src/app.py).

The Python module keeps process-global dictionaries:
  roi_list, sound_files, roi_midi_notes, roi_play_modes,
  roi_last_trigger, roi_playing_status, and the flag simultaneous_play,
plus the previous blurred grayscale frame (prev_frame).

Dictionaries are modelled as association lists with Python-dict
semantics (assignment replaces the value of an existing key, otherwise
appends; deletion removes the key).  Timestamps (time.time() floats)
are modelled as rationals; the single detection call uses one value
`now` for both the cooldown comparison and the stored trigger time.
Image processing (cv2/PIL/numpy, external libraries) is abstracted as
a record of operations `CvOps`; the state machine of the /detect route
only consumes the per-region motion area and the mask shape.
-/

namespace MotionToMIDI

/-- Dictionary lookup, `d.get(k)` / `d[k]` on a Python dict modelled as an
association list. -/
def findk {α : Type} (m : List (String × α)) (k : String) : Option α :=
  match m with
  | [] => none
  | e :: t => if e.1 = k then some e.2 else findk t k

/-- Dictionary assignment `d[k] = v`: replace the value of an existing key,
otherwise append the new entry (Python dicts keep insertion order). -/
def setk {α : Type} (m : List (String × α)) (k : String) (v : α) : List (String × α) :=
  match m with
  | [] => [(k, v)]
  | e :: t => if e.1 = k then (k, v) :: t else e :: setk t k v

/-- Dictionary deletion `del d[k]` / `d.pop(k, None)`: remove the key. -/
def delk {α : Type} (m : List (String × α)) (k : String) : List (String × α) :=
  match m with
  | [] => []
  | e :: t => if e.1 = k then delk t k else e :: delk t k

/-- Region bounding box in percentages of frame width/height
(the roi_coords dict with keys x1, y1, x2, y2; src/app.py line 81). -/
structure BBox where
  x1 : ℚ
  y1 : ℚ
  x2 : ℚ
  y2 : ℚ
deriving DecidableEq

/-- The process-global mutable state of src/app.py (lines 38-45), apart from
prev_frame which is kept separately because it holds an image. -/
structure AppState where
  roi_list : List (String × BBox)
  sound_files : List (String × String)
  roi_midi_notes : List (String × ℤ)
  roi_play_modes : List (String × String)
  roi_last_trigger : List (String × ℚ)
  roi_playing_status : List (String × Bool)
  simultaneous_play : Bool

/-- Initial state: every dictionary empty, simultaneous_play = True
(src/app.py lines 38-45). -/
def initState : AppState :=
  ⟨[], [], [], [], [], [], true⟩

/-- The lookup roi_play_modes.get(roi_id) with default restart
(src/app.py line 94). -/
def playModeOf (st : AppState) (rid : String) : String :=
  (findk st.roi_play_modes rid).getD "restart"

/-- roi_playing_status.get(roi_id, False)  (src/app.py line 95). -/
def playingOf (st : AppState) (rid : String) : Bool :=
  (findk st.roi_playing_status rid).getD false

/-- roi_last_trigger.get(roi_id, 0)  (src/app.py line 101). -/
def lastTriggerOf (st : AppState) (rid : String) : ℚ :=
  (findk st.roi_last_trigger rid).getD 0

/-- Truncation toward zero, the behaviour of Python `int()` on a float. -/
def ratTrunc (q : ℚ) : ℤ :=
  if 0 ≤ q then ⌊q⌋ else ⌈q⌉

/-- Percentage-to-pixel conversion `int(p * dim / 100)`
(src/app.py lines 84-85).  No clamping is performed. -/
def toPixel (p : ℚ) (dim : ℕ) : ℤ :=
  ratTrunc (p * dim / 100)

/-- The single-play preemption loop (src/app.py lines 114-116): every key
other than the triggering region whose status is True is set to False. -/
def stopOthers (m : List (String × Bool)) (rid : String) : List (String × Bool) :=
  match m with
  | [] => []
  | e :: t => (if e.1 ≠ rid ∧ e.2 = true then (e.1, false) else e) :: stopOthers t rid

/-- The regions the preemption loop silences (the ids reported as stopped at
src/app.py line 117): keys other than the triggering region whose playing
status is True. -/
def silencedOf (m : List (String × Bool)) (rid : String) : List String :=
  match m with
  | [] => []
  | e :: t => if e.1 ≠ rid ∧ e.2 = true then e.1 :: silencedOf t rid else silencedOf t rid

/-- The trigger decision of src/app.py lines 97-108: motion, then the 2.0 s
cooldown measured from last_trigger_time, then the play-mode gate
(mode restart always retriggers; mode finish only when not currently
playing). -/
def shouldTrigger (st : AppState) (rid : String) (motionDetected : Bool) (now : ℚ) : Bool :=
  if motionDetected then
    if 2 ≤ now - lastTriggerOf st rid then
      if playModeOf st rid = "restart" then true
      else if playModeOf st rid = "finish" ∧ playingOf st rid = false then true
      else false
    else false
  else false

/-- The per-region entry placed in motion_results (src/app.py lines 144-153). -/
structure RegionResult where
  motion : Bool
  motion_area : ℕ
  sound_file : Option String
  midi_note : Option ℤ
  play_mode : String
  should_trigger : Bool
  currently_playing : Bool
  stop_others : Bool
deriving DecidableEq

/-- Everything one iteration of the region loop produces: the JSON result
entry, the ids the preemption loop silenced, and the MIDI note-on sent
(none when no note is assigned or no trigger fired). -/
structure RegionOutcome where
  result : RegionResult
  silenced : List String
  note_on : Option ℤ

/-- One iteration of the region loop of /detect (src/app.py lines 93-153)
for a region whose motion area has already been counted: compute the
trigger decision; on trigger run the preemption loop (when
simultaneous_play is False), send the note-on when a note is assigned,
set last_trigger_time to now, and in finish mode mark the region as
playing; finally report the result entry.  `currently_playing` is read
before any update, as in the source (line 95). -/
def evalRegion (st : AppState) (rid : String) (motionArea : ℕ) (now : ℚ) :
    AppState × RegionOutcome :=
  let motionDetected := decide (500 < motionArea)
  let trig := shouldTrigger st rid motionDetected now
  let result : RegionResult :=
    { motion := motionDetected
      motion_area := motionArea
      sound_file := findk st.sound_files rid
      midi_note := findk st.roi_midi_notes rid
      play_mode := playModeOf st rid
      should_trigger := trig
      currently_playing := playingOf st rid
      stop_others := trig && !st.simultaneous_play }
  if trig then
    ({ st with
        roi_last_trigger := setk st.roi_last_trigger rid now
        roi_playing_status :=
          let base :=
            if st.simultaneous_play then st.roi_playing_status
            else stopOthers st.roi_playing_status rid
          if playModeOf st rid = "finish" then setk base rid true else base },
     { result := result
       silenced :=
         if st.simultaneous_play then [] else silencedOf st.roi_playing_status rid
       note_on := findk st.roi_midi_notes rid })
  else
    (st, { result := result, silenced := [], note_on := none })

/-- The region loop of /detect (src/app.py line 79): iterate over the
roi_list snapshot in order, threading the mutable state through
`evalRegion` and collecting the per-region outcomes.  `areaOf` computes
the motion area of a region from its bounding box (the loop never mutates
roi_list itself, so iterating over the snapshot matches the source). -/
def detectLoop (l : List (String × BBox)) (areaOf : BBox → ℕ) (now : ℚ) (st : AppState) :
    AppState × List (String × RegionOutcome) :=
  match l with
  | [] => (st, [])
  | e :: t =>
    let p := evalRegion st e.1 (areaOf e.2) now
    let r := detectLoop t areaOf now p.1
    (r.1, (e.1, p.2) :: r.2)

/-- The image-processing collaborators of /detect, abstracted: cv2/PIL are
external libraries, so the grayscale + GaussianBlur step, the
absdiff/threshold/dilate mask, the mask shape (h, w), counting nonzero
pixels of the submask thresh[y1:y2, x1:x2], and of the whole mask, are
parameters of the embedding. -/
structure CvOps (Frame Mask : Type) where
  grayBlur : Frame → Frame
  diffMask : Frame → Frame → Mask
  shape : Mask → ℕ × ℕ
  subCount : Mask → ℤ → ℤ → ℤ → ℤ → ℕ
  count : Mask → ℕ

/-- CvOps over trivial frame and mask types, for evaluating the embedding on
concrete inputs. -/
def unitCv : CvOps Unit Unit :=
  ⟨fun _ => (), fun _ _ => (), fun _ => (0, 0), fun _ _ _ _ _ => 0, fun _ => 0⟩

/-- The /detect route (src/app.py lines 56-177), after the base64/PIL image
decoding that is external plumbing.  Blur the incoming frame; if no
previous frame exists, store the blurred frame and return empty results;
otherwise build the motion mask, run the region loop (converting each
box from percentages against the h, w of the mask), and when no ROI is
configured produce the single global result (threshold 2000) instead.
Returns (new prev_frame, new state, motion_results). -/
def detect {Frame Mask : Type} (cv : CvOps Frame Mask) (prev : Option Frame)
    (st : AppState) (frame : Frame) (now : ℚ) :
    Option Frame × AppState × List (String × RegionResult) :=
  let fg := cv.grayBlur frame
  match prev with
  | none => (some fg, st, [])
  | some pf =>
    let th := cv.diffMask pf fg
    let h := (cv.shape th).1
    let w := (cv.shape th).2
    let r := detectLoop st.roi_list
      (fun bb => cv.subCount th (toPixel bb.y1 h) (toPixel bb.y2 h)
        (toPixel bb.x1 w) (toPixel bb.x2 w)) now st
    let results :=
      if st.roi_list.isEmpty then
        let area := cv.count th
        [("global",
          { motion := decide (2000 < area)
            motion_area := area
            sound_file := none
            midi_note := none
            play_mode := "restart"
            should_trigger := decide (2000 < area)
            currently_playing := false
            stop_others := false })]
      else r.2.map (fun p => (p.1, p.2.result))
    (some fg, r.1, results)

/-- The /update_roi route (src/app.py lines 179-188): upsert the bounding
box for the id. -/
def update_roi (st : AppState) (rid : String) (coords : BBox) : AppState :=
  { st with roi_list := setk st.roi_list rid coords }

/-- The /clear_roi route (src/app.py lines 195-213): when a truthy roi_id is
given and present, delete it and pop its playing-status and last-trigger
entries; otherwise clear the registry and both runtime maps entirely. -/
def clear_roi (st : AppState) (rid? : Option String) : AppState :=
  match rid? with
  | some rid =>
    if rid ≠ "" ∧ (findk st.roi_list rid).isSome = true then
      { st with
          roi_list := delk st.roi_list rid
          roi_playing_status := delk st.roi_playing_status rid
          roi_last_trigger := delk st.roi_last_trigger rid }
    else
      { st with roi_list := [], roi_playing_status := [], roi_last_trigger := [] }
  | none =>
    { st with roi_list := [], roi_playing_status := [], roi_last_trigger := [] }

/-- The /set_midi_note route (src/app.py lines 215-222). -/
def set_midi_note (st : AppState) (rid : String) (note : ℤ) : AppState :=
  { st with roi_midi_notes := setk st.roi_midi_notes rid note }

/-- The /set_play_mode route (src/app.py lines 224-231). -/
def set_play_mode (st : AppState) (rid : String) (mode : String) : AppState :=
  { st with roi_play_modes := setk st.roi_play_modes rid mode }

/-- The /set_simultaneous_play route (src/app.py lines 233-239). -/
def set_simultaneous_play (st : AppState) (b : Bool) : AppState :=
  { st with simultaneous_play := b }

/-- The /sound_finished route (src/app.py lines 245-251): unconditionally
set roi_playing_status[roi_id] = False for the id in the request. -/
def sound_finished (st : AppState) (rid : String) : AppState :=
  { st with roi_playing_status := setk st.roi_playing_status rid false }

/-- One state-mutating request to the app, for reasoning about sequences of
operations.  `det` carries the per-box motion area the mask would give,
abstracting the image inputs; a first-frame /detect call leaves the
state unchanged and is covered by `det` with any areas as well, since
the loop runs over the same roi_list. -/
inductive Op where
  | upd (rid : String) (bb : BBox)
  | clr (rid? : Option String)
  | fin (rid : String)
  | note (rid : String) (n : ℤ)
  | mode (rid : String) (m : String)
  | simul (b : Bool)
  | det (areaOf : BBox → ℕ) (now : ℚ)

/-- Apply one request to the state, per the route handlers above. -/
def applyOp (st : AppState) : Op → AppState
  | .upd rid bb => update_roi st rid bb
  | .clr r => clear_roi st r
  | .fin rid => sound_finished st rid
  | .note rid n => set_midi_note st rid n
  | .mode rid m => set_play_mode st rid m
  | .simul b => set_simultaneous_play st b
  | .det areaOf now => (detectLoop st.roi_list areaOf now st).1

/-- Run a sequence of requests from the initial state. -/
def runOps (ops : List Op) : AppState :=
  ops.foldl applyOp initState

/-- The id a single request inserts into the region registry (only
update_roi inserts). -/
def opUpd : Op → List String
  | .upd rid _ => [rid]
  | _ => []

/-- The id a single request passes to /sound_finished. -/
def opFin : Op → List String
  | .fin rid => [rid]
  | _ => []

/-- The ids ever inserted into the region registry by a request sequence
(the registry starts empty, and only update_roi inserts). -/
def everIds (ops : List Op) : List String :=
  ops.foldr (fun op acc => opUpd op ++ acc) []

/-- The ids passed to /sound_finished by a request sequence. -/
def finIds (ops : List Op) : List String :=
  ops.foldr (fun op acc => opFin op ++ acc) []

theorem findk_setk_self {α : Type} (m : List (String × α)) (k : String) (v : α) :
    findk (setk m k v) k = some v := by
  induction m with
  | nil => simp [findk, setk]
  | cons e t ih =>
    by_cases h : e.1 = k
    · simp [setk, h, findk]
    · simp [setk, h, findk, ih]

theorem findk_setk_ne {α : Type} (m : List (String × α)) (k k' : String) (v : α)
    (h : k' ≠ k) : findk (setk m k v) k' = findk m k' := by
  induction m with
  | nil => simp [findk, setk, Ne.symm h]
  | cons e t ih =>
    by_cases he : e.1 = k
    · simp [setk, he, findk, Ne.symm h]
    · simp [setk, he, findk, ih]

theorem findk_delk_self {α : Type} (m : List (String × α)) (k : String) :
    findk (delk m k) k = none := by
  induction m with
  | nil => simp [findk, delk]
  | cons e t ih =>
    by_cases h : e.1 = k
    · simp [delk, h, ih]
    · simp [delk, h, findk, ih]

theorem findk_delk_isSome {α : Type} (m : List (String × α)) (k k' : String)
    (h : (findk (delk m k) k').isSome = true) : (findk m k').isSome = true := by
  induction m with
  | nil => simpa [delk] using h
  | cons e t ih =>
    by_cases he : e.1 = k
    · simp only [delk, he, if_pos] at h
      by_cases hk : e.1 = k'
      · simp [findk, hk]
      · simpa [findk, hk] using ih (by simpa [delk, he] using h)
    · by_cases hk : e.1 = k'
      · simp [findk, hk]
      · simp only [delk, he, if_neg, findk, hk] at h ⊢
        exact ih (by simpa [findk, hk] using h)

theorem findk_setk_isSome {α : Type} (m : List (String × α)) (k k' : String) (v : α)
    (h : (findk (setk m k v) k').isSome = true) :
    k' = k ∨ (findk m k').isSome = true := by
  by_cases hk : k' = k
  · exact Or.inl hk
  · exact Or.inr (by rwa [findk_setk_ne m k k' v hk] at h)

theorem findk_stopOthers (m : List (String × Bool)) (rid k : String) :
    findk (stopOthers m rid) k =
      (findk m k).map (fun v => if k = rid then v else false) := by
  induction m with
  | nil => simp [findk, stopOthers]
  | cons e t ih =>
    by_cases hcond : e.1 ≠ rid ∧ e.2 = true
    · by_cases hk : e.1 = k
      · have hkr : ¬ k = rid := by
          intro hkr; exact hcond.1 (hk.trans hkr)
        simp [stopOthers, hcond, findk, hk, hkr, hcond.2]
      · simp [stopOthers, hcond, findk, hk, ih]
    · by_cases hk : e.1 = k
      · by_cases hkr : k = rid
        · simp [stopOthers, hcond, findk, hk, hkr]
        · have he2 : e.2 = false := by
            cases h2 : e.2
            · rfl
            · exact absurd ⟨fun hh => hkr (hk.symm.trans hh), h2⟩ hcond
          simp [stopOthers, hcond, findk, hk, hkr, he2]
      · simp [stopOthers, hcond, findk, hk, ih]

theorem mem_silencedOf (m : List (String × Bool)) (rid k : String)
    (hk : k ≠ rid) (hv : findk m k = some true) : k ∈ silencedOf m rid := by
  induction m with
  | nil => simp [findk] at hv
  | cons e t ih =>
    by_cases he : e.1 = k
    · have hv2 : e.2 = true := by simpa [findk, he] using hv
      have : e.1 ≠ rid ∧ e.2 = true := ⟨fun hh => hk (he.symm.trans hh), hv2⟩
      simp [silencedOf, this, he, hk]
    · have hv' : findk t k = some true := by simpa [findk, he] using hv
      by_cases hcond : e.1 ≠ rid ∧ e.2 = true
      · simp [silencedOf, hcond]
        exact Or.inr (ih hv')
      · simp [silencedOf, hcond]
        exact ih hv'

theorem evalRegion_preserves (st : AppState) (rid : String) (a : ℕ) (now : ℚ) :
    ((evalRegion st rid a now).1).roi_list = st.roi_list ∧
    ((evalRegion st rid a now).1).roi_play_modes = st.roi_play_modes ∧
    ((evalRegion st rid a now).1).roi_midi_notes = st.roi_midi_notes ∧
    ((evalRegion st rid a now).1).sound_files = st.sound_files ∧
    ((evalRegion st rid a now).1).simultaneous_play = st.simultaneous_play := by
  simp only [evalRegion]
  split <;> simp

theorem evalRegion_no_trigger (st : AppState) (rid : String) (a : ℕ) (now : ℚ)
    (h : shouldTrigger st rid (decide (500 < a)) now = false) :
    (evalRegion st rid a now).1 = st := by
  simp [evalRegion, h]

theorem evalRegion_trigger_state (st : AppState) (rid : String) (a : ℕ) (now : ℚ)
    (h : shouldTrigger st rid (decide (500 < a)) now = true) :
    (evalRegion st rid a now).1 =
      { st with
          roi_last_trigger := setk st.roi_last_trigger rid now
          roi_playing_status :=
            if playModeOf st rid = "finish" then
              setk (if st.simultaneous_play then st.roi_playing_status
                    else stopOthers st.roi_playing_status rid) rid true
            else
              if st.simultaneous_play then st.roi_playing_status
              else stopOthers st.roi_playing_status rid } := by
  simp [evalRegion, h]

theorem evalRegion_trigger_outcome (st : AppState) (rid : String) (a : ℕ) (now : ℚ)
    (h : shouldTrigger st rid (decide (500 < a)) now = true) :
    (evalRegion st rid a now).2.silenced =
      (if st.simultaneous_play then [] else silencedOf st.roi_playing_status rid) ∧
    (evalRegion st rid a now).2.note_on = findk st.roi_midi_notes rid ∧
    (evalRegion st rid a now).2.result.should_trigger = true := by
  simp [evalRegion, h]

theorem findk_stopOthers_isSome (m : List (String × Bool)) (rid k : String) :
    (findk (stopOthers m rid) k).isSome = (findk m k).isSome := by
  rw [findk_stopOthers]
  cases findk m k <;> rfl

theorem findk_isSome_of_mem {α : Type} (m : List (String × α)) (e : String × α)
    (he : e ∈ m) : (findk m e.1).isSome = true := by
  induction m with
  | nil => simp at he
  | cons x t ih =>
    by_cases hx : x.1 = e.1
    · simp [findk, hx]
    · rcases List.mem_cons.mp he with rfl | ht
      · exact absurd rfl hx
      · simp [findk, hx, ih ht]

theorem evalRegion_should_trigger (st : AppState) (rid : String) (a : ℕ) (now : ℚ) :
    (evalRegion st rid a now).2.result.should_trigger =
      shouldTrigger st rid (decide (500 < a)) now := by
  simp only [evalRegion]
  split <;> rfl

theorem evalRegion_play_mode (st : AppState) (rid : String) (a : ℕ) (now : ℚ) :
    (evalRegion st rid a now).2.result.play_mode = playModeOf st rid := by
  simp only [evalRegion]
  split <;> rfl

theorem shouldTrigger_restart_iff (st : AppState) (rid : String) (a : ℕ) (now : ℚ)
    (hmode : playModeOf st rid = "restart") (harea : 500 < a) :
    (shouldTrigger st rid (decide (500 < a)) now = true ↔
      2 ≤ now - lastTriggerOf st rid) := by
  by_cases hcd : 2 ≤ now - lastTriggerOf st rid <;>
    simp [shouldTrigger, hmode, harea, hcd]

/-- Domain discipline of the state relative to id sets: the keys of the
registry all lie in `ev`, and the keys of both runtime maps lie in `ev`
or `fs`. -/
def DomInv (st : AppState) (ev fs : List String) : Prop :=
  (∀ k, (findk st.roi_list k).isSome = true → k ∈ ev) ∧
  (∀ k, (findk st.roi_playing_status k).isSome = true → k ∈ ev ∨ k ∈ fs) ∧
  (∀ k, (findk st.roi_last_trigger k).isSome = true → k ∈ ev ∨ k ∈ fs)

theorem domInv_mono {st : AppState} {ev ev2 fs fs2 : List String}
    (hev : ∀ k, k ∈ ev → k ∈ ev2) (hfs : ∀ k, k ∈ fs → k ∈ fs2)
    (h : DomInv st ev fs) : DomInv st ev2 fs2 := by
  obtain ⟨h1, h2, h3⟩ := h
  refine ⟨fun k hk => hev k (h1 k hk), fun k hk => ?_, fun k hk => ?_⟩
  · rcases h2 k hk with h' | h'
    · exact Or.inl (hev k h')
    · exact Or.inr (hfs k h')
  · rcases h3 k hk with h' | h'
    · exact Or.inl (hev k h')
    · exact Or.inr (hfs k h')

theorem domInv_evalRegion {st : AppState} {ev fs : List String}
    (rid : String) (a : ℕ) (now : ℚ) (hrid : rid ∈ ev) (h : DomInv st ev fs) :
    DomInv (evalRegion st rid a now).1 ev fs := by
  obtain ⟨h1, h2, h3⟩ := h
  by_cases htrig : shouldTrigger st rid (decide (500 < a)) now = true
  · rw [evalRegion_trigger_state st rid a now htrig]
    refine ⟨h1, fun k hk => ?_, fun k hk => ?_⟩
    · simp only at hk
      have hbase : ∀ m : List (String × Bool),
          m = (if st.simultaneous_play then st.roi_playing_status
               else stopOthers st.roi_playing_status rid) →
          (findk m k).isSome = true → k ∈ ev ∨ k ∈ fs := by
        intro m hm hks
        by_cases hsim : st.simultaneous_play
        · exact h2 k (by rw [hm, if_pos hsim] at hks; exact hks)
        · refine h2 k ?_
          rw [hm, if_neg hsim, findk_stopOthers_isSome] at hks
          exact hks
      by_cases hfin : playModeOf st rid = "finish"
      · rw [if_pos hfin] at hk
        rcases findk_setk_isSome _ _ _ _ hk with rfl | hk'
        · exact Or.inl hrid
        · exact hbase _ rfl hk'
      · rw [if_neg hfin] at hk
        exact hbase _ rfl hk
    · simp only at hk
      rcases findk_setk_isSome _ _ _ _ hk with rfl | hk'
      · exact Or.inl hrid
      · exact h3 k hk'
  · rw [evalRegion_no_trigger st rid a now (Bool.not_eq_true _ ▸ htrig)]
    exact ⟨h1, h2, h3⟩

theorem domInv_detectLoop (l : List (String × BBox)) (areaOf : BBox → ℕ) (now : ℚ)
    {st : AppState} {ev fs : List String}
    (hl : ∀ e ∈ l, e.1 ∈ ev) (h : DomInv st ev fs) :
    DomInv (detectLoop l areaOf now st).1 ev fs := by
  induction l generalizing st with
  | nil => simpa [detectLoop] using h
  | cons e t ih =>
    simp only [detectLoop]
    exact ih (fun x hx => hl x (List.mem_cons_of_mem _ hx))
      (domInv_evalRegion e.1 (areaOf e.2) now (hl e (List.mem_cons_self _ _)) h)

theorem domInv_step {st : AppState} {ev fs : List String} (op : Op)
    (h : DomInv st ev fs) :
    DomInv (applyOp st op) (opUpd op ++ ev) (opFin op ++ fs) := by
  obtain ⟨h1, h2, h3⟩ := h
  have hup : ∀ k, k ∈ ev → k ∈ opUpd op ++ ev :=
    fun k hk => List.mem_append_right _ hk
  have hfn : ∀ k, k ∈ fs → k ∈ opFin op ++ fs :=
    fun k hk => List.mem_append_right _ hk
  cases op with
  | upd rid bb =>
    refine ⟨fun k hk => ?_, fun k hk => ?_, fun k hk => ?_⟩
    · rcases findk_setk_isSome _ _ _ _ hk with rfl | hk'
      · exact List.mem_append_left _ (List.mem_singleton_self _)
      · exact hup k (h1 k hk')
    · rcases h2 k hk with h' | h'
      · exact Or.inl (hup k h')
      · exact Or.inr (hfn k h')
    · rcases h3 k hk with h' | h'
      · exact Or.inl (hup k h')
      · exact Or.inr (hfn k h')
  | clr r =>
    have hmono := domInv_mono hup hfn ⟨h1, h2, h3⟩
    cases r with
    | none =>
      refine ⟨fun k hk => ?_, fun k hk => ?_, fun k hk => ?_⟩ <;>
        simp [applyOp, clear_roi, findk] at hk
    | some rid =>
      by_cases hc : rid ≠ "" ∧ (findk st.roi_list rid).isSome = true
      · refine ⟨fun k hk => ?_, fun k hk => ?_, fun k hk => ?_⟩
        · simp only [applyOp, clear_roi, if_pos hc] at hk
          exact hmono.1 k (findk_delk_isSome _ _ _ hk)
        · simp only [applyOp, clear_roi, if_pos hc] at hk
          exact hmono.2.1 k (findk_delk_isSome _ _ _ hk)
        · simp only [applyOp, clear_roi, if_pos hc] at hk
          exact hmono.2.2 k (findk_delk_isSome _ _ _ hk)
      · refine ⟨fun k hk => ?_, fun k hk => ?_, fun k hk => ?_⟩ <;>
          simp [applyOp, clear_roi, if_neg hc, findk] at hk
  | fin rid =>
    refine ⟨fun k hk => Or.inl (h1 k hk) |>.elim (hup k) (fun h' => (h' : False).elim),
      fun k hk => ?_, fun k hk => ?_⟩
    · rcases findk_setk_isSome _ _ _ _ hk with rfl | hk'
      · exact Or.inr (List.mem_append_left _ (List.mem_singleton_self _))
      · rcases h2 k hk' with h' | h'
        · exact Or.inl (hup k h')
        · exact Or.inr (hfn k h')
    · rcases h3 k hk with h' | h'
      · exact Or.inl (hup k h')
      · exact Or.inr (hfn k h')
  | note rid n =>
    exact domInv_mono hup hfn ⟨h1, h2, h3⟩
  | mode rid m =>
    exact domInv_mono hup hfn ⟨h1, h2, h3⟩
  | simul b =>
    exact domInv_mono hup hfn ⟨h1, h2, h3⟩
  | det areaOf now =>
    refine domInv_mono hup hfn ?_
    refine domInv_detectLoop st.roi_list areaOf now ?_ ⟨h1, h2, h3⟩
    intro e he
    exact h1 e.1 (findk_isSome_of_mem _ _ he)

theorem domInv_run (ops : List Op) (st : AppState) (ev fs : List String)
    (h : DomInv st ev fs) :
    DomInv (ops.foldl applyOp st) (ev ++ everIds ops) (fs ++ finIds ops) := by
  induction ops generalizing st ev fs with
  | nil =>
    exact domInv_mono (fun k hk => by simp [everIds, hk])
      (fun k hk => by simp [finIds, hk]) h
  | cons op t ih =>
    have hstep := domInv_step op h
    have hrec := ih (applyOp st op) (opUpd op ++ ev) (opFin op ++ fs) hstep
    refine domInv_mono ?_ ?_ hrec
    · intro k hk
      simp only [List.mem_append, everIds, List.foldr_cons] at hk ⊢
      tauto
    · intro k hk
      simp only [List.mem_append, finIds, List.foldr_cons] at hk ⊢
      tauto

/-- C1: Restart-mode cooldown.  For a region in play-mode restart, a
motion event (area above the 500 threshold) triggers iff at least 2.0
seconds have elapsed since the last_trigger_time of that region; then,
when a first event triggers at time t1, a second event at time t2 triggers
iff t2 - t1 ≥ 2.0, so two events at least 2.0 s apart both trigger and two
events less than 2.0 s apart produce exactly one trigger. -/
theorem C1_restart_cooldown (st : AppState) (rid : String) (area : ℕ) (t1 t2 : ℚ)
    (hmode : playModeOf st rid = "restart") (harea : 500 < area) :
    ((evalRegion st rid area t1).2.result.should_trigger = true ↔
      2 ≤ t1 - lastTriggerOf st rid) ∧
    ((evalRegion st rid area t1).2.result.should_trigger = true →
      ((evalRegion (evalRegion st rid area t1).1 rid area t2).2.result.should_trigger = true ↔
        2 ≤ t2 - t1)) := by
  constructor
  · rw [evalRegion_should_trigger]
    exact shouldTrigger_restart_iff st rid area t1 hmode harea
  · intro htrig
    rw [evalRegion_should_trigger] at htrig
    have hmode1 : playModeOf (evalRegion st rid area t1).1 rid = "restart" := by
      unfold playModeOf
      rw [(evalRegion_preserves st rid area t1).2.1]
      exact hmode
    have hlast : lastTriggerOf (evalRegion st rid area t1).1 rid = t1 := by
      rw [evalRegion_trigger_state st rid area t1 htrig]
      simp [lastTriggerOf, findk_setk_self]
    rw [evalRegion_should_trigger,
      shouldTrigger_restart_iff _ rid area t2 hmode1 harea, hlast]

/-- Witness for C1: fresh state, region r1 (unconfigured mode defaults to
restart), area 600, first event at t=5, second at t=6. -/
theorem C1_restart_cooldown_witness :
    playModeOf initState "r1" = "restart" ∧ 500 < 600 ∧
    (((evalRegion initState "r1" 600 5).2.result.should_trigger = true ↔
      2 ≤ (5 : ℚ) - lastTriggerOf initState "r1") ∧
    ((evalRegion initState "r1" 600 5).2.result.should_trigger = true →
      ((evalRegion (evalRegion initState "r1" 600 5).1 "r1" 600 6).2.result.should_trigger = true ↔
        2 ≤ (6 : ℚ) - 5))) :=
  ⟨rfl, by norm_num,
    C1_restart_cooldown initState "r1" 600 5 6 rfl (by norm_num)⟩

/-- C2: Finish-mode suppression.  For a region in play-mode 'finish', a
motion event with is_playing true never triggers, regardless of elapsed
time; after /sound_finished clears is_playing for the region, the next
motion event with the 2.0-second cooldown elapsed triggers. -/
theorem C2_finish_suppression (st : AppState) (rid : String) (area : ℕ) (now : ℚ)
    (hmode : playModeOf st rid = "finish") (harea : 500 < area) :
    (playingOf st rid = true →
      (evalRegion st rid area now).2.result.should_trigger = false) ∧
    (2 ≤ now - lastTriggerOf st rid →
      (evalRegion (sound_finished st rid) rid area now).2.result.should_trigger = true) := by
  constructor
  · intro hplay
    rw [evalRegion_should_trigger]
    simp [shouldTrigger, hmode, hplay]
  · intro hcd
    rw [evalRegion_should_trigger]
    have h1 : playModeOf (sound_finished st rid) rid = playModeOf st rid := rfl
    have h2 : playingOf (sound_finished st rid) rid = false := by
      simp [playingOf, sound_finished, findk_setk_self]
    have h3 : lastTriggerOf (sound_finished st rid) rid = lastTriggerOf st rid := rfl
    simp [shouldTrigger, h1, h2, h3, hmode, harea, hcd]

/-- Witness for C2: region r1 set to finish mode, playing, area 600, t=5. -/
theorem C2_finish_suppression_witness :
    playModeOf (sound_finished (set_play_mode initState "r1" "finish") "r1") "r1" = "finish" ∧
    500 < 600 ∧
    ((playingOf (sound_finished (set_play_mode initState "r1" "finish") "r1") "r1" = true →
      (evalRegion (sound_finished (set_play_mode initState "r1" "finish") "r1") "r1" 600 5).2.result.should_trigger = false) ∧
    (2 ≤ (5 : ℚ) - lastTriggerOf (sound_finished (set_play_mode initState "r1" "finish") "r1") "r1" →
      (evalRegion (sound_finished (sound_finished (set_play_mode initState "r1" "finish") "r1") "r1") "r1" 600 5).2.result.should_trigger = true)) :=
  ⟨rfl, by norm_num,
    C2_finish_suppression (sound_finished (set_play_mode initState "r1" "finish") "r1")
      "r1" 600 5 rfl (by norm_num)⟩

/-- C3: Single-play preemption.  When the trigger of a region fires with
simultaneous_play false, every other region whose is_playing is true has
its is_playing forced to false and appears in the silence set; with
simultaneous_play true, the is_playing of no other region changes and the
silence set is empty. -/
theorem C3_single_play_preemption (st : AppState) (rid : String) (area : ℕ) (now : ℚ)
    (htrig : shouldTrigger st rid (decide (500 < area)) now = true) :
    (st.simultaneous_play = false →
      ∀ k, k ≠ rid → findk st.roi_playing_status k = some true →
        findk ((evalRegion st rid area now).1).roi_playing_status k = some false ∧
        k ∈ (evalRegion st rid area now).2.silenced) ∧
    (st.simultaneous_play = true →
      (∀ k, k ≠ rid →
        findk ((evalRegion st rid area now).1).roi_playing_status k =
          findk st.roi_playing_status k) ∧
      (evalRegion st rid area now).2.silenced = []) := by
  have hout := evalRegion_trigger_outcome st rid area now htrig
  have hstate := evalRegion_trigger_state st rid area now htrig
  constructor
  · intro hsim k hk hv
    refine ⟨?_, ?_⟩
    · rw [hstate]
      by_cases hfin : playModeOf st rid = "finish" <;>
        simp [hsim, hfin, findk_setk_ne _ _ _ _ hk, findk_stopOthers, hv, hk]
    · rw [hout.1, if_neg (by simp [hsim])]
      exact mem_silencedOf _ _ _ hk hv
  · intro hsim
    refine ⟨fun k hk => ?_, ?_⟩
    · rw [hstate]
      by_cases hfin : playModeOf st rid = "finish" <;>
        simp [hsim, hfin, findk_setk_ne _ _ _ _ hk]
    · rw [hout.1, if_pos hsim]

/-- Witness for C3: single-play state, region a triggers at t=5 while
region b is playing. -/
theorem C3_single_play_preemption_witness :
    shouldTrigger (⟨[("a", ⟨10, 10, 50, 50⟩)], [], [], [], [], [("b", true)], false⟩ : AppState)
      "a" (decide (500 < 600)) 5 = true ∧
    (((⟨[("a", ⟨10, 10, 50, 50⟩)], [], [], [], [], [("b", true)], false⟩ : AppState).simultaneous_play = false →
      ∀ k, k ≠ "a" →
        findk (⟨[("a", ⟨10, 10, 50, 50⟩)], [], [], [], [], [("b", true)], false⟩ : AppState).roi_playing_status k = some true →
        findk ((evalRegion (⟨[("a", ⟨10, 10, 50, 50⟩)], [], [], [], [], [("b", true)], false⟩ : AppState) "a" 600 5).1).roi_playing_status k = some false ∧
        k ∈ (evalRegion (⟨[("a", ⟨10, 10, 50, 50⟩)], [], [], [], [], [("b", true)], false⟩ : AppState) "a" 600 5).2.silenced) ∧
    ((⟨[("a", ⟨10, 10, 50, 50⟩)], [], [], [], [], [("b", true)], false⟩ : AppState).simultaneous_play = true →
      (∀ k, k ≠ "a" →
        findk ((evalRegion (⟨[("a", ⟨10, 10, 50, 50⟩)], [], [], [], [], [("b", true)], false⟩ : AppState) "a" 600 5).1).roi_playing_status k =
          findk (⟨[("a", ⟨10, 10, 50, 50⟩)], [], [], [], [], [("b", true)], false⟩ : AppState).roi_playing_status k) ∧
      (evalRegion (⟨[("a", ⟨10, 10, 50, 50⟩)], [], [], [], [], [("b", true)], false⟩ : AppState) "a" 600 5).2.silenced = [])) :=
  ⟨by norm_num [shouldTrigger, playModeOf, playingOf, lastTriggerOf, findk],
    C3_single_play_preemption _ "a" 600 5
      (by norm_num [shouldTrigger, playModeOf, playingOf, lastTriggerOf, findk])⟩

/-- C6: First-frame edge case.  When no previous frame exists, /detect
returns an empty per-region results mapping (so no global entry either),
leaves the whole application state unchanged, never fails (it is a total
function of the embedding), and stores the blurred grayscale of the
current frame as the new reference. -/
theorem C6_first_frame {Frame Mask : Type} (cv : CvOps Frame Mask) (st : AppState)
    (frame : Frame) (now : ℚ) :
    detect cv none st frame now = (some (cv.grayBlur frame), st, []) := rfl

/-- C7: Trigger side effects.  Whenever the trigger of a region fires, its
last_trigger_time is set to the current time; its is_playing is set to
true when the play-mode is 'finish'; a trigger in 'restart' mode leaves
the own is_playing entry of that region unchanged. -/
theorem C7_trigger_side_effects (st : AppState) (rid : String) (area : ℕ) (now : ℚ)
    (htrig : shouldTrigger st rid (decide (500 < area)) now = true) :
    lastTriggerOf (evalRegion st rid area now).1 rid = now ∧
    (playModeOf st rid = "finish" →
      playingOf (evalRegion st rid area now).1 rid = true) ∧
    (playModeOf st rid = "restart" →
      findk ((evalRegion st rid area now).1).roi_playing_status rid =
        findk st.roi_playing_status rid) := by
  have hstate := evalRegion_trigger_state st rid area now htrig
  refine ⟨?_, ?_, ?_⟩
  · rw [hstate]
    simp [lastTriggerOf, findk_setk_self]
  · intro hfin
    rw [hstate]
    simp [playingOf, hfin, findk_setk_self]
  · intro hres
    have hfin : ¬ playModeOf st rid = "finish" := by
      rw [hres]; decide
    rw [hstate]
    by_cases hsim : st.simultaneous_play <;>
      simp [hfin, hsim, findk_stopOthers]

/-- Witness for C7: fresh state, region r1 in default restart mode, area
600, trigger at t=5. -/
theorem C7_trigger_side_effects_witness :
    shouldTrigger initState "r1" (decide (500 < 600)) 5 = true ∧
    (lastTriggerOf (evalRegion initState "r1" 600 5).1 "r1" = 5 ∧
    (playModeOf initState "r1" = "finish" →
      playingOf (evalRegion initState "r1" 600 5).1 "r1" = true) ∧
    (playModeOf initState "r1" = "restart" →
      findk ((evalRegion initState "r1" 600 5).1).roi_playing_status "r1" =
        findk initState.roi_playing_status "r1")) :=
  ⟨by norm_num [shouldTrigger, playModeOf, playingOf, lastTriggerOf, findk],
    C7_trigger_side_effects initState "r1" 600 5
      (by norm_num [shouldTrigger, playModeOf, playingOf, lastTriggerOf, findk])⟩

/-- C8: Unassigned-note triggers.  When a trigger fires for a region with
no MIDI note configured, no note-on is emitted, yet last_trigger_time is
set to now and the runtime-state updates (cooldown, playing status,
preemption) are exactly those that would occur had a note n been
configured, and the call still succeeds (the emission for the configured
variant being note-on n). -/
theorem C8_unassigned_note (st : AppState) (rid : String) (area : ℕ) (now : ℚ) (n : ℤ)
    (hnote : findk st.roi_midi_notes rid = none)
    (htrig : shouldTrigger st rid (decide (500 < area)) now = true) :
    (evalRegion st rid area now).2.note_on = none ∧
    lastTriggerOf (evalRegion st rid area now).1 rid = now ∧
    ((evalRegion st rid area now).1).roi_last_trigger =
      ((evalRegion (set_midi_note st rid n) rid area now).1).roi_last_trigger ∧
    ((evalRegion st rid area now).1).roi_playing_status =
      ((evalRegion (set_midi_note st rid n) rid area now).1).roi_playing_status ∧
    (evalRegion (set_midi_note st rid n) rid area now).2.note_on = some n := by
  have htrig2 : shouldTrigger (set_midi_note st rid n) rid (decide (500 < area)) now = true :=
    htrig
  have hout := evalRegion_trigger_outcome st rid area now htrig
  have hout2 := evalRegion_trigger_outcome (set_midi_note st rid n) rid area now htrig2
  have hstate := evalRegion_trigger_state st rid area now htrig
  have hstate2 := evalRegion_trigger_state (set_midi_note st rid n) rid area now htrig2
  refine ⟨?_, ?_, ?_, ?_, ?_⟩
  · rw [hout.2.1, hnote]
  · rw [hstate]
    simp [lastTriggerOf, findk_setk_self]
  · rw [hstate, hstate2]
    simp [set_midi_note]
  · rw [hstate, hstate2]
    simp [set_midi_note, playModeOf]
  · rw [hout2.2.1]
    simp [set_midi_note, findk_setk_self]

/-- Witness for C8: fresh state, region r1 with no note assigned, area 600,
trigger at t=5, compared against configuring note 60. -/
theorem C8_unassigned_note_witness :
    findk initState.roi_midi_notes "r1" = none ∧
    shouldTrigger initState "r1" (decide (500 < 600)) 5 = true ∧
    ((evalRegion initState "r1" 600 5).2.note_on = none ∧
    lastTriggerOf (evalRegion initState "r1" 600 5).1 "r1" = 5 ∧
    ((evalRegion initState "r1" 600 5).1).roi_last_trigger =
      ((evalRegion (set_midi_note initState "r1" 60) "r1" 600 5).1).roi_last_trigger ∧
    ((evalRegion initState "r1" 600 5).1).roi_playing_status =
      ((evalRegion (set_midi_note initState "r1" 60) "r1" 600 5).1).roi_playing_status ∧
    (evalRegion (set_midi_note initState "r1" 60) "r1" 600 5).2.note_on = some 60) :=
  ⟨rfl, by norm_num [shouldTrigger, playModeOf, playingOf, lastTriggerOf, findk],
    C8_unassigned_note initState "r1" 600 5 60 rfl
      (by norm_num [shouldTrigger, playModeOf, playingOf, lastTriggerOf, findk])⟩

/-- C9: Deletion purges runtime state.  Deleting a present region by id
removes its is_playing and last_trigger_time entries; re-adding the same
id yields the default runtime state (is_playing false, last trigger the
0 default, i.e. no cooldown history); deleting all regions clears both
runtime maps entirely. -/
theorem C9_deletion_purges (st : AppState) (rid : String) (coords : BBox)
    (hrid : rid ≠ "") (hin : (findk st.roi_list rid).isSome = true) :
    findk (clear_roi st (some rid)).roi_playing_status rid = none ∧
    findk (clear_roi st (some rid)).roi_last_trigger rid = none ∧
    playingOf (update_roi (clear_roi st (some rid)) rid coords) rid = false ∧
    lastTriggerOf (update_roi (clear_roi st (some rid)) rid coords) rid = 0 ∧
    (clear_roi st none).roi_playing_status = [] ∧
    (clear_roi st none).roi_last_trigger = [] := by
  have hcond : rid ≠ "" ∧ (findk st.roi_list rid).isSome = true := ⟨hrid, hin⟩
  refine ⟨?_, ?_, ?_, ?_, rfl, rfl⟩ <;>
    simp [clear_roi, hcond, update_roi, playingOf, lastTriggerOf, findk_delk_self]

/-- Witness for C9: state holding region r1, deleted then re-added. -/
theorem C9_deletion_purges_witness :
    "r1" ≠ "" ∧
    (findk (update_roi initState "r1" ⟨10, 10, 50, 50⟩).roi_list "r1").isSome = true ∧
    (findk (clear_roi (update_roi initState "r1" ⟨10, 10, 50, 50⟩) (some "r1")).roi_playing_status "r1" = none ∧
    findk (clear_roi (update_roi initState "r1" ⟨10, 10, 50, 50⟩) (some "r1")).roi_last_trigger "r1" = none ∧
    playingOf (update_roi (clear_roi (update_roi initState "r1" ⟨10, 10, 50, 50⟩) (some "r1")) "r1" ⟨10, 10, 50, 50⟩) "r1" = false ∧
    lastTriggerOf (update_roi (clear_roi (update_roi initState "r1" ⟨10, 10, 50, 50⟩) (some "r1")) "r1" ⟨10, 10, 50, 50⟩) "r1" = 0 ∧
    (clear_roi (update_roi initState "r1" ⟨10, 10, 50, 50⟩) none).roi_playing_status = [] ∧
    (clear_roi (update_roi initState "r1" ⟨10, 10, 50, 50⟩) none).roi_last_trigger = []) :=
  ⟨by decide, rfl,
    C9_deletion_purges (update_roi initState "r1" ⟨10, 10, 50, 50⟩) "r1"
      ⟨10, 10, 50, 50⟩ (by decide) rfl⟩

/-- C10: Implicit default play-mode.  A region with no configured play-mode
is evaluated under restart (reported as its play_mode in the result),
so it triggers after the cooldown regardless of is_playing. -/
theorem C10_default_play_mode (st : AppState) (rid : String) (area : ℕ) (now : ℚ)
    (hmode : findk st.roi_play_modes rid = none) :
    (evalRegion st rid area now).2.result.play_mode = "restart" ∧
    (500 < area → 2 ≤ now - lastTriggerOf st rid →
      (evalRegion st rid area now).2.result.should_trigger = true) := by
  have hpm : playModeOf st rid = "restart" := by
    simp [playModeOf, hmode]
  constructor
  · rw [evalRegion_play_mode, hpm]
  · intro harea hcd
    rw [evalRegion_should_trigger]
    simp [shouldTrigger, hpm, harea, hcd]

/-- Witness for C10: fresh state, region r1 never configured, playing set
true to show the restart default retriggers regardless. -/
theorem C10_default_play_mode_witness :
    findk (sound_finished initState "r1").roi_play_modes "r1" = none ∧
    ((evalRegion (sound_finished initState "r1") "r1" 600 5).2.result.play_mode = "restart" ∧
    (500 < 600 → 2 ≤ (5 : ℚ) - lastTriggerOf (sound_finished initState "r1") "r1" →
      (evalRegion (sound_finished initState "r1") "r1" 600 5).2.result.should_trigger = true)) :=
  ⟨rfl, C10_default_play_mode (sound_finished initState "r1") "r1" 600 5 rfl⟩

/-- Counterexample to C4 as stated: the single request /sound_finished for
id r1, starting from the initial state, creates a runtime-state entry
(roi_playing_status) for r1 although the region registry stayed empty the
whole run and no update_roi ever registered r1 (everIds of the run is
empty), so an id is present in runtime state that never was in the
registry. -/
theorem C4_counterexample :
    (findk (runOps [Op.fin "r1"]).roi_playing_status "r1").isSome = true ∧
    (runOps [Op.fin "r1"]).roi_list = [] ∧
    everIds [Op.fin "r1"] = [] :=
  ⟨rfl, rfl, rfl⟩

/-- C4 amended: after any sequence of operations, every ROI id with an
entry in the runtime state maps (roi_playing_status or roi_last_trigger)
either is or has previously been present in the region registry, or was
passed to /sound_finished (which writes a runtime entry for an arbitrary
request id without consulting the registry); deletion purges runtime
state together with the registry entry, so it introduces no exception. -/
theorem C4_runtime_domain (ops : List Op) (k : String)
    (h : (findk (runOps ops).roi_playing_status k).isSome = true ∨
      (findk (runOps ops).roi_last_trigger k).isSome = true) :
    k ∈ everIds ops ∨ k ∈ finIds ops := by
  have h0 : DomInv initState [] [] := by
    refine ⟨?_, ?_, ?_⟩ <;> intro k hk <;> simp [initState, findk] at hk
  have hrun := domInv_run ops initState [] [] h0
  have hrw : ops.foldl applyOp initState = runOps ops := rfl
  rw [hrw] at hrun
  rcases h with h | h
  · rcases hrun.2.1 k h with h' | h'
    · exact Or.inl (by simpa using h')
    · exact Or.inr (by simpa using h')
  · rcases hrun.2.2 k h with h' | h'
    · exact Or.inl (by simpa using h')
    · exact Or.inr (by simpa using h')

/-- Witness for C4 (amended): the run consisting of the single
/sound_finished request for r1. -/
theorem C4_runtime_domain_witness :
    ((findk (runOps [Op.fin "r1"]).roi_playing_status "r1").isSome = true ∨
      (findk (runOps [Op.fin "r1"]).roi_last_trigger "r1").isSome = true) ∧
    ("r1" ∈ everIds [Op.fin "r1"] ∨ "r1" ∈ finIds [Op.fin "r1"]) :=
  ⟨Or.inl rfl, C4_runtime_domain [Op.fin "r1"] "r1" (Or.inl rfl)⟩

/-- Counterexample to C5 as stated: the detector performs no clamping.  On
a mask of width 100, the out-of-range percentage x=150 yields the pixel
coordinate 150, strictly beyond the frame dimension; and on a mask of
width 5, the in-range ordered percentages x1=10 < x2=11 both map to pixel
0, so even clamped input does not yield x1 < x2. -/
theorem C5_counterexample :
    toPixel 150 100 = 150 ∧ (100 : ℤ) < toPixel 150 100 ∧
    toPixel 10 5 = 0 ∧ toPixel 11 5 = 0 := by
  refine ⟨?_, ?_, ?_, ?_⟩ <;> norm_num [toPixel, ratTrunc]

/-- C5 amended: for percentages within [0, 100], the derived pixel
coordinate int(p * dim / 100) lies within [0, frame_dimension], and the
conversion is monotone, so ordered percentages give x1 ≤ x2 (strict order
is not preserved, and out-of-range percentages are not clamped). -/
theorem C5_pixel_bounds (p q : ℚ) (w : ℕ)
    (h0 : 0 ≤ p) (h100 : p ≤ 100) (hpq : p ≤ q) :
    0 ≤ toPixel p w ∧ toPixel p w ≤ (w : ℤ) ∧ toPixel p w ≤ toPixel q w := by
  have hw : (0 : ℚ) ≤ (w : ℚ) := Nat.cast_nonneg w
  have hx0 : 0 ≤ p * w / 100 :=
    div_nonneg (mul_nonneg h0 hw) (by norm_num)
  have hq0 : 0 ≤ q * w / 100 :=
    div_nonneg (mul_nonneg (h0.trans hpq) hw) (by norm_num)
  have hple : p * w / 100 ≤ (w : ℚ) := by
    have h1 : p * w ≤ 100 * w := mul_le_mul_of_nonneg_right h100 hw
    linarith
  have hmono : p * w / 100 ≤ q * w / 100 := by
    have h1 : p * w ≤ q * w := mul_le_mul_of_nonneg_right hpq hw
    linarith
  refine ⟨?_, ?_, ?_⟩
  · rw [toPixel, ratTrunc, if_pos hx0]
    exact Int.floor_nonneg.mpr hx0
  · rw [toPixel, ratTrunc, if_pos hx0]
    have := Int.floor_le_floor hple
    rwa [Int.floor_natCast] at this
  · rw [toPixel, toPixel, ratTrunc, ratTrunc, if_pos hx0, if_pos hq0]
    exact Int.floor_le_floor hmono

/-- Witness for C5 (amended): percentages 10 and 50 on a mask of width
100. -/
theorem C5_pixel_bounds_witness :
    (0 : ℚ) ≤ 10 ∧ (10 : ℚ) ≤ 100 ∧ (10 : ℚ) ≤ 50 ∧
    (0 ≤ toPixel 10 100 ∧ toPixel 10 100 ≤ (100 : ℤ) ∧
      toPixel 10 100 ≤ toPixel 50 100) :=
  ⟨by norm_num, by norm_num, by norm_num,
    C5_pixel_bounds 10 50 100 (by norm_num) (by norm_num) (by norm_num)⟩

end MotionToMIDI
